import Mathlib

/-!
Verification of the `comply` policy library (`src/index.ts`).

The TypeScript source is shallowly embedded: JavaScript runtime values are
modelled by the inductive `Value`, policy conditions by `PolicyCondition`
(a literal boolean or a boolean-valued function of the argument; at runtime a
zero-argument condition function is a function that ignores its argument,
which is `undefined` when the caller omits it), errors by the `PolicyError`
record (a `name` and a `message`), and functions that may `throw` return
`Except PolicyError`.  JavaScript plain-object records (`Record<string, T>`)
are modelled as insertion-ordered association lists with overwrite-in-place
assignment (`recordSet`) and `undefined`-returning lookup (`recordGet`,
returning `Option`).
-/

namespace Comply

/-- JavaScript runtime values, as far as the library observes them:
`typeof`-dispatch, truthiness, and `JSON.stringify`.  `NaN` is kept as a
distinguished constructor (it is falsy and stringifies to `"null"`), so
numbers can stay integers. -/
inductive Value where
  | vUndefined : Value
  | vNull : Value
  | vNaN : Value
  | vBool (b : Bool) : Value
  | vNum (n : Int) : Value
  | vStr (s : String) : Value
  | vArr (elems : List Value) : Value

/-- JavaScript truthiness: `undefined`, `null`, `NaN`, `false`, `0` and the
empty string are falsy; every other value (arrays included) is truthy. -/
def truthy : Value → Bool
  | .vUndefined => false
  | .vNull => false
  | .vNaN => false
  | .vBool b => b
  | .vNum n => decide (n ≠ 0)
  | .vStr s => decide (s ≠ "")
  | .vArr _ => true

/-- JSON string escaping for the characters the library can feed through
`JSON.stringify` (quote and backslash). -/
def jsonEscapeChar (c : Char) : String :=
  if c = '"' then "\\\"" else if c = '\\' then "\\\\" else String.singleton c

/-- Escape a string body for `JSON.stringify`. -/
def jsonEscape (s : String) : String :=
  String.join (s.toList.map jsonEscapeChar)

mutual

/-- The `JSON.stringify` function, on the fragment of values the library handles.
(`undefined` at top level is never stringified by the library — the default
error factory guards with truthiness — and inside arrays `JSON.stringify`
renders `undefined` and `NaN` as `null`, which is what we do.) -/
def jsonStringify : Value → String
  | .vUndefined => "null"
  | .vNull => "null"
  | .vNaN => "null"
  | .vBool b => if b then "true" else "false"
  | .vNum n => toString n
  | .vStr s => "\"" ++ jsonEscape s ++ "\""
  | .vArr elems => "[" ++ String.intercalate "," (jsonStringifyList elems) ++ "]"

/-- Stringification of the elements of an array. -/
def jsonStringifyList : List Value → List String
  | [] => []
  | v :: vs => jsonStringify v :: jsonStringifyList vs

end

/-- An error value: JavaScript `Error` as the library observes it, a `name`
and a `message`. -/
structure PolicyError where
  name : String
  message : String
deriving DecidableEq

/-- A `PolicyCondition` is either a literal boolean or a boolean-returning
function of the (possibly `undefined`) argument.  A zero-argument condition
function of the source is embedded as a function that ignores its
argument. -/
inductive PolicyCondition where
  | lit (b : Bool) : PolicyCondition
  | fn (f : Value → Bool) : PolicyCondition

/-- Spec-side application of a condition to an argument: a literal boolean
is a constant, argument-independent result; a function is applied. -/
def PolicyCondition.apply : PolicyCondition → Value → Bool
  | .lit b, _ => b
  | .fn f, arg => f arg

/-- The `Policy` class: a name, a condition and an error factory. -/
structure Policy where
  name : String
  condition : PolicyCondition
  errorFactory : Value → PolicyError

/-- The method `Policy.check`:
`typeof this.condition === "boolean" ? this.condition : this.condition(arg)`. -/
def Policy.check (p : Policy) (arg : Value) : Bool :=
  match p.condition with
  | .lit b => b
  | .fn f => f arg

/-- Third argument of `definePolicy`: an error factory function or a
message string (or absent, modelled by `Option … = none` at call sites). -/
inductive ErrorFactoryOrMessage where
  | factory (f : Value → PolicyError) : ErrorFactoryOrMessage
  | message (s : String) : ErrorFactoryOrMessage

/-- JavaScript `||` on `string | undefined`: the fallback is used when the
operand is `undefined` or the empty string (both falsy). -/
def jsStringOr (s : Option String) (fallback : String) : String :=
  match s with
  | some m => if m = "" then fallback else m
  | none => fallback

/-- The templated default message:
`` `[${name}] policy is not met for the argument: ${arg ? JSON.stringify(arg) : "<no value>"}` ``. -/
def defaultMessage (name : String) (arg : Value) : String :=
  let argText := if truthy arg then jsonStringify arg else "<no value>"
  "[" ++ name ++ "] policy is not met for the argument: " ++ argText

/-- The default error factory synthesized by `definePolicy` when no factory
function is supplied: message is `errorFactoryOrMessage || <template>`, and
`error.name` is set to `` `PolicyRejection: [${name}]` ``. -/
def defaultErrorFactory (name : String) (msg : Option String) (arg : Value) : PolicyError :=
  { name := "PolicyRejection: [" ++ name ++ "]",
    message := jsStringOr msg (defaultMessage name arg) }

/-- The function `definePolicy(name, condition, errorFactoryOrMessage?)`. -/
def definePolicy (name : String) (condition : PolicyCondition)
    (errorFactoryOrMessage : Option ErrorFactoryOrMessage) : Policy :=
  let errorFactory : Value → PolicyError :=
    match errorFactoryOrMessage with
    | some (.factory f) => f
    | some (.message m) => defaultErrorFactory name (some m)
    | none => defaultErrorFactory name none
  { name := name, condition := condition, errorFactory := errorFactory }

/-- JavaScript record assignment `m[k] = v`: overwrite in place when the key
is present, append otherwise (insertion order is preserved). -/
def recordSet {α : Type} (m : List (String × α)) (k : String) (v : α) :
    List (String × α) :=
  if m.any (fun e => e.1 = k)
  then m.map (fun e => if e.1 = k then (k, v) else e)
  else m ++ [(k, v)]

/-- JavaScript record lookup `m[k]`: the stored value, or `undefined`
(`none`) when the key was never assigned. -/
def recordGet {α : Type} (m : List (String × α)) (k : String) : Option α :=
  (m.find? (fun e => e.1 = k)).map Prod.snd

/-- The record built by the `PolicySet` constructor loop:
`for (const policy of policies) this.set[policy.name] = policy`. -/
def buildPolicyRecord (policies : List Policy) : List (String × Policy) :=
  policies.foldl (fun m p => recordSet m p.name p) []

/-- The `PolicySet` class: a name-indexed record of policies. -/
structure PolicySet where
  set : List (String × Policy)

/-- Constructor call `new PolicySet(policies)`. -/
def PolicySet.ofList (policies : List Policy) : PolicySet :=
  { set := buildPolicyRecord policies }

/-- The method `PolicySet.policy(name)`: plain record lookup, `undefined` when the name
was never inserted. -/
def PolicySet.policy (s : PolicySet) (name : String) : Option Policy :=
  recordGet s.set name

/-- Inputs of `definePolicies`: either a literal list of policies, or a
`define` function of a context returning `PoliciesOrFactory`. -/
inductive PoliciesOrFactory (Key : Type) where
  | list (policies : List Policy) : PoliciesOrFactory Key
  | factory (f : Key → List Policy) : PoliciesOrFactory Key

/-- What applying the context function returned by `definePolicies` yields:
a policy set, or (when the `define` function returned a factory) a function
of the extra arguments producing a policy set. -/
inductive ContextResult (Key : Type) where
  | set (s : PolicySet) : ContextResult Key
  | keyed (h : Key → PolicySet) : ContextResult Key

/-- The argument of the `definePolicies` implementation
(`defineOrPolicies`): an array of policies or a `define` function. -/
inductive DefinePoliciesInput (Ctx Key : Type) where
  | policies (ps : List Policy) : DefinePoliciesInput Ctx Key
  | define (f : Ctx → PoliciesOrFactory Key) : DefinePoliciesInput Ctx Key

/-- The result of `definePolicies`: a policy set (array input) or a
context-consuming function. -/
inductive DefinePoliciesOutput (Ctx Key : Type) where
  | set (s : PolicySet) : DefinePoliciesOutput Ctx Key
  | fromContext (g : Ctx → ContextResult Key) : DefinePoliciesOutput Ctx Key

/-- The function `definePolicies(defineOrPolicies)`: `Array.isArray` dispatch, then for a
`define` function, a `typeof policiesOrFactory === "function"` dispatch on
what it returns for the supplied context. -/
def definePolicies {Ctx Key : Type} :
    DefinePoliciesInput Ctx Key → DefinePoliciesOutput Ctx Key
  | .policies ps => .set (PolicySet.ofList ps)
  | .define f =>
      .fromContext (fun context =>
        match f context with
        | .factory g => .keyed (fun k => PolicySet.ofList (g k))
        | .list ps => .set (PolicySet.ofList ps))

/-- A `PolicySet` instrumented with an object identity: `new` allocation is
modelled by threading a fresh-id counter. -/
structure AllocPolicySet where
  objectId : Nat
  set : List (String × Policy)

/-- Lookup on an instrumented policy set (same record lookup as
`PolicySet.policy`). -/
def AllocPolicySet.policy (s : AllocPolicySet) (name : String) : Option Policy :=
  recordGet s.set name

/-- Constructor call `new PolicySet(policies)` with explicit allocation: the constructed
object carries a fresh identity and the counter advances. -/
def newPolicySet (policies : List Policy) (nextId : Nat) : AllocPolicySet × Nat :=
  ({ objectId := nextId, set := buildPolicyRecord policies }, nextId + 1)

/-- Variant of `ContextResult` with allocation instrumented: the keyed branch defers
the `new PolicySet(...)` allocation to each invocation. -/
inductive ContextResultA (Key : Type) where
  | set (s : AllocPolicySet) : ContextResultA Key
  | keyed (h : Key → Nat → AllocPolicySet × Nat) : ContextResultA Key

/-- The context function returned by `definePolicies` for a `define` input,
with allocation instrumented: the `.list` branch allocates the set now, the
`.factory` branch returns `(...args) => new PolicySet(policiesOrFactory(...args))`,
which allocates on every invocation. -/
def definePoliciesFromContextA {Ctx Key : Type} (f : Ctx → PoliciesOrFactory Key)
    (context : Ctx) (nextId : Nat) : ContextResultA Key × Nat :=
  match f context with
  | .factory g => (.keyed (fun k nid => newPolicySet (g k) nid), nextId)
  | .list ps =>
      let r := newPolicySet ps nextId
      (.set r.1, r.2)

/- ------------------------------- Guards ---------------------------------- -/

/-- A call of `check`/`assert` after overload resolution: either
`(policy, arg?)` or `(name, condition, arg?)`; an omitted argument is
`undefined` (`Value.vUndefined`). -/
inductive GuardCall where
  | policy (p : Policy) (arg : Value) : GuardCall
  | nameCondition (n : String) (condition : PolicyCondition) (arg : Value) : GuardCall

/-- The dispatch shared by the `check` and `assert` implementations:
a string first argument builds `definePolicy(policyOrName, args[0])` (no
error factory) with `arg = args[1]`; otherwise the policy is the first
argument and `arg = args[0]`. -/
def resolveGuardCall : GuardCall → Policy × Value
  | .policy p arg => (p, arg)
  | .nameCondition n condition arg => (definePolicy n condition none, arg)

/-- Implementation of `check`: after dispatch,
`typeof policy.condition === "boolean" ? policy.condition : policy.condition(arg)`. -/
def check (call : GuardCall) : Bool :=
  let r := resolveGuardCall call
  match r.1.condition with
  | .lit b => b
  | .fn f => f r.2

/-- Implementation of `assert`: after the same dispatch, return `()` when
the condition holds, otherwise `throw policy.errorFactory(arg)`. -/
def assert (call : GuardCall) : Except PolicyError Unit :=
  let r := resolveGuardCall call
  if (match r.1.condition with | .lit b => b | .fn f => f r.2)
  then Except.ok ()
  else Except.error (r.1.errorFactory r.2)

/- ----------------------------- Combinators ------------------------------- -/

/-- An operand of `or`/`and`: a literal boolean or a zero-argument
boolean-returning function. -/
inductive Operand where
  | lit (b : Bool) : Operand
  | fn (f : Unit → Bool) : Operand

/-- The predicate `or`/`and` map over their operands:
`typeof predicate === "function" ? predicate() : predicate`. -/
def Operand.eval : Operand → Bool
  | .lit b => b
  | .fn f => f ()

/-- The combinator `or(...conditions)`: `conditions.some(...)` — sequential, stopping at
the first operand that evaluates true. -/
def or : List Operand → Bool
  | [] => false
  | c :: cs => if c.eval then true else or cs

/-- The combinator `and(...conditions)`: `conditions.every(...)` — sequential, stopping at
the first operand that evaluates false. -/
def and : List Operand → Bool
  | [] => true
  | c :: cs => if c.eval then and cs else false

/-- Evaluation of `Array.prototype.some` instrumented with the list of operands actually
examined (an operand's function is invoked exactly when the operand is
examined). -/
def someExamined : List Operand → Bool × List Operand
  | [] => (false, [])
  | c :: cs =>
      if c.eval then (true, [c])
      else
        let r := someExamined cs
        (r.1, c :: r.2)

/-- Evaluation of `Array.prototype.every` instrumented with the list of operands actually
examined. -/
def everyExamined : List Operand → Bool × List Operand
  | [] => (true, [])
  | c :: cs =>
      if c.eval then
        let r := everyExamined cs
        (r.1, c :: r.2)
      else (false, [c])

/-- Wrap a literal operand into an equivalent zero-argument function
operand (a function operand is kept as is). -/
def Operand.toThunk : Operand → Operand
  | .lit b => .fn (fun _ => b)
  | .fn f => .fn f

/- --------------------------- checkAllSettle ------------------------------ -/

/-- A `PolicyTuple`: `[name, conditionNoArg]`, `[policy]` (argument
`undefined`) or `[policy, arg]`.  In the first form the second tuple slot
holds the condition (a boolean or a zero-argument function). -/
inductive PolicyTuple where
  | nameCondition (n : String) (condition : PolicyCondition) : PolicyTuple
  | policyArg (p : Policy) (arg : Value) : PolicyTuple

/-- The policy name of a tuple:
`typeof policyOrName === "string" ? policyOrName : policyOrName.name`. -/
def PolicyTuple.policyName : PolicyTuple → String
  | .nameCondition n _ => n
  | .policyArg p _ => p.name

/-- The boolean a tuple settles to: for a name tuple,
`typeof arg === "function" ? arg() : arg` (the zero-argument condition
invoked, or the literal boolean); for a policy tuple, `policyOrName.check(arg)`. -/
def PolicyTuple.eval : PolicyTuple → Bool
  | .nameCondition _ condition =>
      match condition with
      | .fn f => f .vUndefined
      | .lit b => b
  | .policyArg p arg => p.check arg

/-- The function `checkAllSettle(policies)`: a `reduce` over the tuples assigning
`acc[policyName] = result` for every tuple in order. -/
def checkAllSettle (tuples : List PolicyTuple) : List (String × Bool) :=
  tuples.foldl (fun acc t => recordSet acc t.policyName t.eval) []

/- ---------------------------- Record lemmas ------------------------------ -/

/-- Lookup after the overwrite-in-place branch of a record assignment. -/
theorem recordGet_mapReplace {α : Type} (k n : String) (v : α) :
    ∀ (m : List (String × α)),
      recordGet (m.map (fun e => if e.1 = k then (k, v) else e)) n =
        if n = k then (if m.any (fun e => e.1 = k) then some v else none)
        else recordGet m n := by
  intro m
  induction m with
  | nil => by_cases h : n = k <;> simp [recordGet, h]
  | cons e rest ih =>
    simp only [List.map_cons, List.any_cons]
    by_cases hek : e.1 = k
    · simp only [if_pos hek, recordGet] at ih ⊢
      by_cases hnk : n = k
      · subst hnk
        rw [List.find?_cons_of_pos _ (by simp)]
        simp [hek]
      · rw [List.find?_cons_of_neg _ (by simp [Ne.symm hnk]),
            List.find?_cons_of_neg _ (by simp; exact fun h => hnk (h.symm.trans hek))]
        rw [ih]
        simp [hnk]
    · simp only [if_neg hek, recordGet] at ih ⊢
      by_cases hne : e.1 = n
      · have hnk : ¬ (n = k) := fun h => hek (hne.trans h)
        rw [List.find?_cons_of_pos _ (by simp [hne]),
            List.find?_cons_of_pos _ (by simp [hne])]
        simp [hnk, hek]
      · rw [List.find?_cons_of_neg _ (by simp [hne]),
            List.find?_cons_of_neg _ (by simp [hne])]
        rw [ih]
        have hdk : (decide (e.1 = k)) = false := decide_eq_false hek
        simp only [hdk, Bool.false_or]

/-- Record assignment followed by lookup. -/
theorem recordGet_recordSet {α : Type} (m : List (String × α)) (k n : String) (v : α) :
    recordGet (recordSet m k v) n = if n = k then some v else recordGet m n := by
  unfold recordSet
  by_cases hany : m.any (fun e => e.1 = k)
  · rw [if_pos hany, recordGet_mapReplace, if_pos hany]
  · rw [if_neg hany]
    have hnone : m.find? (fun e => e.1 = k) = none := by
      rw [List.find?_eq_none]
      intro x hx hxk
      exact hany (List.any_eq_true.mpr ⟨x, hx, hxk⟩)
    by_cases hnk : n = k
    · subst hnk
      simp [recordGet, List.find?_append, hnone, List.find?]
    · simp [recordGet, List.find?_append, List.find?, Ne.symm hnk, hnk]

/-- Lookup in a record built by folding assignments over a list: the last
assignment to a key wins, and keys never assigned fall back to the initial
record. -/
theorem recordGet_foldl {α β : Type} (key : β → String) (val : β → α) :
    ∀ (l : List β) (m : List (String × α)) (n : String),
      recordGet (l.foldl (fun acc x => recordSet acc (key x) (val x)) m) n =
        ((l.reverse.find? (fun x => key x = n)).map val).or (recordGet m n) := by
  intro l
  induction l with
  | nil => intro m n; simp
  | cons x xs ih =>
    intro m n
    rw [List.foldl_cons, ih, List.reverse_cons, List.find?_append,
        recordGet_recordSet]
    by_cases hx : key x = n
    · rw [List.find?_cons_of_pos _ (by simp [hx])]
      by_cases hfound : xs.reverse.find? (fun y => key y = n) = none
      · simp [hfound, hx, Option.or]
      · rcases Option.ne_none_iff_exists'.mp hfound with ⟨y, hy⟩
        simp [hy, Option.or]
    · rw [List.find?_cons_of_neg _ (by simp [hx])]
      have : (if n = key x then some (val x) else recordGet m n) = recordGet m n := by
        rw [if_neg (fun h => hx h.symm)]
      rw [this]
      simp

/-- The keys of a record after an assignment: unchanged when the key was
present, the key appended otherwise. -/
theorem recordSet_keys {α : Type} (m : List (String × α)) (k : String) (v : α) :
    (recordSet m k v).map Prod.fst =
      if m.any (fun e => e.1 = k) then m.map Prod.fst
      else m.map Prod.fst ++ [k] := by
  unfold recordSet
  by_cases hany : m.any (fun e => e.1 = k)
  · rw [if_pos hany, if_pos hany, List.map_map]
    have hfun : (Prod.fst ∘ fun e : String × α => if e.1 = k then (k, v) else e) =
        Prod.fst := by
      funext e
      by_cases h : e.1 = k <;> simp [h]
    rw [hfun]
  · rw [if_neg hany, if_neg hany, List.map_append]
    rfl

/-- Folding record assignments preserves distinctness of the keys. -/
theorem foldl_recordSet_keys_nodup {α β : Type} (key : β → String) (val : β → α) :
    ∀ (l : List β) (m : List (String × α)), (m.map Prod.fst).Nodup →
      ((l.foldl (fun acc x => recordSet acc (key x) (val x)) m).map Prod.fst).Nodup := by
  intro l
  induction l with
  | nil => intro m h; exact h
  | cons x xs ih =>
    intro m h
    rw [List.foldl_cons]
    apply ih
    rw [recordSet_keys]
    by_cases hany : m.any (fun e => e.1 = key x)
    · rwa [if_pos hany]
    · rw [if_neg hany]
      have hk : key x ∉ m.map Prod.fst := by
        intro hmem
        rcases List.mem_map.mp hmem with ⟨e, he, hfst⟩
        exact hany (List.any_eq_true.mpr ⟨e, he, by simp [hfst]⟩)
      simp [List.nodup_append, h, hk]

/-- The policy record lookup, characterized: the last policy of the
construction list carrying the name, if any. -/
theorem policySet_policy_spec (policies : List Policy) (n : String) :
    (PolicySet.ofList policies).policy n =
      policies.reverse.find? (fun p => p.name = n) := by
  have h := recordGet_foldl (fun p : Policy => p.name) (fun p : Policy => p) policies [] n
  simp only [PolicySet.policy, PolicySet.ofList, buildPolicyRecord, recordGet] at h ⊢
  rw [h]
  cases policies.reverse.find? (fun p => p.name = n) <;> rfl

/-- The `assert` implementation, rewritten through `check`: the same
dispatch and condition evaluation, throwing the resolved policy's
`errorFactory(arg)` exactly when the evaluation is false. -/
theorem assert_eq_check_ite (call : GuardCall) :
    assert call =
      if check call then Except.ok ()
      else Except.error
        ((resolveGuardCall call).1.errorFactory (resolveGuardCall call).2) := rfl

/- ------------------------------- Claims ---------------------------------- -/

/-- C1: for every policy `P` and argument `a`, `check(P, a)` returns exactly
the condition applied to the argument (`P.condition(a)`, a literal boolean
condition being a constant), `Policy.check` agrees, and when the condition
is a literal boolean `b` the result is `b` regardless of the argument. -/
theorem check_eq_condition_apply :
    (∀ (p : Policy) (a : Value), check (.policy p a) = p.condition.apply a) ∧
    (∀ (p : Policy) (a : Value), p.check a = p.condition.apply a) ∧
    (∀ (p : Policy) (b : Bool), p.condition = .lit b →
      ∀ (a : Value), check (.policy p a) = b) := by
  refine ⟨fun p a => ?_, fun p a => ?_, fun p b hb a => ?_⟩
  · cases h : p.condition <;>
      simp [check, resolveGuardCall, PolicyCondition.apply, h]
  · cases h : p.condition <;>
      simp [Policy.check, PolicyCondition.apply, h]
  · simp [check, resolveGuardCall, hb]

/-- Witness for C1 at a concrete literal-boolean policy and argument. -/
theorem check_eq_condition_apply_witness :
    check (.policy (definePolicy "is admin" (.lit true) none) Value.vNull) = true :=
  check_eq_condition_apply.2.2 (definePolicy "is admin" (.lit true) none) true rfl
    Value.vNull

/-- C2: when `check(P, a)` is false, `assert(P, a)` throws exactly
`P.errorFactory(a)` and nothing else; when it is true, `assert(P, a)`
returns without throwing. -/
theorem assert_error_iff_check_false (p : Policy) (a : Value) :
    (check (.policy p a) = false →
      assert (.policy p a) = Except.error (p.errorFactory a)) ∧
    (check (.policy p a) = true → assert (.policy p a) = Except.ok ()) := by
  constructor <;> intro h <;> rw [assert_eq_check_ite, h] <;> rfl

/-- Witness for C2: a failing policy throws its factory's error, a passing
policy returns. -/
theorem assert_error_iff_check_false_witness :
    assert (.policy (definePolicy "has items" (.lit false) none) Value.vNull) =
      Except.error
        ((definePolicy "has items" (.lit false) none).errorFactory Value.vNull) ∧
    assert (.policy (definePolicy "has items" (.lit true) none) Value.vNull) =
      Except.ok () :=
  ⟨(assert_error_iff_check_false (definePolicy "has items" (.lit false) none)
      Value.vNull).1 rfl,
   (assert_error_iff_check_false (definePolicy "has items" (.lit true) none)
      Value.vNull).2 rfl⟩

/-- C7: a policy set keeps at most one policy per name (its record's keys
are distinct), and lookup returns the last policy of the construction list
carrying the name — later entries silently replace earlier ones. -/
theorem policySet_nodup_and_last_wins (policies : List Policy) (n : String) :
    ((PolicySet.ofList policies).set.map Prod.fst).Nodup ∧
    (PolicySet.ofList policies).policy n =
      policies.reverse.find? (fun p => p.name = n) := by
  constructor
  · exact foldl_recordSet_keys_nodup (fun p : Policy => p.name) (fun p : Policy => p)
      policies [] (by simp)
  · exact policySet_policy_spec policies n

/-- C9: looking up a name that was never inserted returns the absent value
(`none`, the embedding of `undefined`); the lookup path is total and raises
no not-found error. -/
theorem policySet_unknown_name_none (policies : List Policy) (n : String)
    (h : ∀ p ∈ policies, p.name ≠ n) :
    (PolicySet.ofList policies).policy n = none := by
  rw [policySet_policy_spec]
  rw [List.find?_eq_none]
  intro p hp
  simpa using h p (List.mem_reverse.mp hp)

/-- Witness for C9 at a concrete one-policy set and a foreign name. -/
theorem policySet_unknown_name_none_witness :
    (PolicySet.ofList [definePolicy "has items" (.lit true) none]).policy "other" =
      none :=
  policySet_unknown_name_none [definePolicy "has items" (.lit true) none] "other"
    (by
      intro p hp
      rw [List.mem_singleton] at hp
      subst hp
      decide)

/-- Appending different suffixes to the same string gives different
strings. -/
theorem append_right_ne (a b c : String) (h : b ≠ c) : a ++ b ≠ a ++ c := by
  intro he
  apply h
  have hd : (a ++ b).data = (a ++ c).data := congrArg String.data he
  rw [String.data_append, String.data_append] at hd
  have h2 : b.data = c.data := List.append_cancel_left hd
  cases b; cases c
  exact congrArg String.mk h2

/-- No falsy value stringifies to the sentinel. -/
theorem jsonStringify_falsy_ne_sentinel (arg : Value) (h : truthy arg = false) :
    jsonStringify arg ≠ "<no value>" := by
  cases arg with
  | vUndefined => decide
  | vNull => decide
  | vNaN => decide
  | vBool b =>
      have hb : b = false := by simpa [truthy] using h
      subst hb
      decide
  | vNum n =>
      have hn : n = 0 := by simpa [truthy] using h
      subst hn
      decide
  | vStr s =>
      have hs : s = "" := by simpa [truthy] using h
      subst hs
      decide
  | vArr elems => simp [truthy] at h

/-- C3 counterexample: the sentinel is not selected "exactly when the
argument is absent" — for the present (but falsy) argument `false`, the
default factory still produces the sentinel message instead of the JSON
stringification of the argument. -/
theorem default_factory_sentinel_counterexample :
    ((definePolicy "p" (.lit false) none).errorFactory (Value.vBool false)).message =
      "[p] policy is not met for the argument: " ++ "<no value>" ∧
    "[p] policy is not met for the argument: " ++ "<no value>" ≠
      "[p] policy is not met for the argument: " ++ jsonStringify (Value.vBool false) :=
  ⟨rfl, by decide⟩

/-- C3 (amended): the default error factory produces an error whose message
embeds the policy name in brackets and the JSON stringification of the
rejected argument, substituting the sentinel exactly when the argument is
falsy (an absent argument is `undefined` and hence falsy), and whose name
field is the fixed rejection marker with the policy name in brackets; in
particular for the policy name given in the claim and the empty array. -/
theorem default_factory_message_and_name (name : String)
    (condition : PolicyCondition) (arg : Value) :
    ((definePolicy name condition none).errorFactory arg).name =
      "PolicyRejection: [" ++ name ++ "]" ∧
    ((definePolicy name condition none).errorFactory arg).message =
      "[" ++ name ++ "] policy is not met for the argument: " ++
        (if truthy arg then jsonStringify arg else "<no value>") ∧
    ((definePolicy "has items" condition none).errorFactory (Value.vArr [])).message =
      "[has items] policy is not met for the argument: []" ∧
    ((definePolicy "has items" condition none).errorFactory (Value.vArr [])).name =
      "PolicyRejection: [has items]" :=
  ⟨rfl, rfl, rfl, rfl⟩

/-- C10: the default error factory selects the sentinel by the argument's
truthiness, not its presence: every falsy argument yields the sentinel
message, never the JSON stringification of the argument. -/
theorem default_factory_sentinel_by_truthiness (name : String)
    (condition : PolicyCondition) (arg : Value) (h : truthy arg = false) :
    ((definePolicy name condition none).errorFactory arg).message =
      "[" ++ name ++ "] policy is not met for the argument: " ++ "<no value>" ∧
    ((definePolicy name condition none).errorFactory arg).message ≠
      "[" ++ name ++ "] policy is not met for the argument: " ++ jsonStringify arg := by
  have hmsg : ((definePolicy name condition none).errorFactory arg).message =
      "[" ++ name ++ "] policy is not met for the argument: " ++ "<no value>" := by
    show jsStringOr none (defaultMessage name arg) = _
    simp [jsStringOr, defaultMessage, h]
  refine ⟨hmsg, ?_⟩
  rw [hmsg]
  exact append_right_ne _ _ _ (Ne.symm (jsonStringify_falsy_ne_sentinel arg h))

/-- Witness for C10 at the falsy arguments listed by the claim:
`false`, `0`, the empty string, `null` and `NaN`. -/
theorem default_factory_sentinel_by_truthiness_witness :
    ((definePolicy "p" (.lit false) none).errorFactory Value.vNull).message =
      "[" ++ "p" ++ "] policy is not met for the argument: " ++ "<no value>" ∧
    ((definePolicy "p" (.lit false) none).errorFactory (Value.vBool false)).message =
      "[" ++ "p" ++ "] policy is not met for the argument: " ++ "<no value>" ∧
    ((definePolicy "p" (.lit false) none).errorFactory (Value.vNum 0)).message =
      "[" ++ "p" ++ "] policy is not met for the argument: " ++ "<no value>" ∧
    ((definePolicy "p" (.lit false) none).errorFactory (Value.vStr "")).message =
      "[" ++ "p" ++ "] policy is not met for the argument: " ++ "<no value>" ∧
    ((definePolicy "p" (.lit false) none).errorFactory Value.vNaN).message =
      "[" ++ "p" ++ "] policy is not met for the argument: " ++ "<no value>" :=
  ⟨(default_factory_sentinel_by_truthiness "p" (.lit false) Value.vNull rfl).1,
   (default_factory_sentinel_by_truthiness "p" (.lit false) (Value.vBool false) rfl).1,
   (default_factory_sentinel_by_truthiness "p" (.lit false) (Value.vNum 0) (by decide)).1,
   (default_factory_sentinel_by_truthiness "p" (.lit false) (Value.vStr "") (by decide)).1,
   (default_factory_sentinel_by_truthiness "p" (.lit false) Value.vNaN rfl).1⟩

/-- C4 counterexample: a policy built with the empty string as message does
not produce the empty string as the error's message — the JavaScript `||`
falls back to the templated message. -/
theorem string_message_empty_counterexample :
    ((definePolicy "p" (.lit false) (some (.message ""))).errorFactory
        Value.vNull).message =
      "[p] policy is not met for the argument: " ++ "<no value>" ∧
    "[p] policy is not met for the argument: " ++ "<no value>" ≠ "" :=
  ⟨rfl, by decide⟩

/-- C4 (amended): for every policy constructed with a non-empty literal
string as `errorFactoryOrMessage` and every failing argument, the produced
error (the one `assert` throws) has exactly that string as message instead
of the templated message, and its name field still carries the rejection
marker with the policy name. -/
theorem string_message_factory (name : String) (condition : PolicyCondition)
    (msg : String) (arg : Value) (hmsg : msg ≠ "") :
    ((definePolicy name condition (some (.message msg))).errorFactory arg).message =
      msg ∧
    ((definePolicy name condition (some (.message msg))).errorFactory arg).name =
      "PolicyRejection: [" ++ name ++ "]" ∧
    (check (.policy (definePolicy name condition (some (.message msg))) arg) = false →
      assert (.policy (definePolicy name condition (some (.message msg))) arg) =
        Except.error
          ((definePolicy name condition (some (.message msg))).errorFactory arg)) := by
  refine ⟨?_, rfl, ?_⟩
  · show jsStringOr (some msg) _ = msg
    simp [jsStringOr, hmsg]
  · intro h
    rw [assert_eq_check_ite, h]
    rfl

/-- Witness for C4 with the claim's message string at a failing argument. -/
theorem string_message_factory_witness :
    ((definePolicy "post has comments" (.lit false)
        (some (.message "Post has no comments"))).errorFactory Value.vNull).message =
      "Post has no comments" :=
  (string_message_factory "post has comments" (.lit false) "Post has no comments"
    Value.vNull (by decide)).1

/-- Aggregate semantics of `or`: true exactly when some operand evaluates
true. -/
theorem or_true_iff (l : List Operand) :
    or l = true ↔ ∃ c ∈ l, c.eval = true := by
  induction l with
  | nil => simp [or]
  | cons c cs ih => by_cases hc : c.eval = true <;> simp [or, hc, ih]

/-- Aggregate semantics of `and`: true exactly when every operand evaluates
true. -/
theorem and_true_iff (l : List Operand) :
    and l = true ↔ ∀ c ∈ l, c.eval = true := by
  induction l with
  | nil => simp [and]
  | cons c cs ih => by_cases hc : c.eval = true <;> simp [and, hc, ih]

/-- The instrumented `some` computes `or`. -/
theorem someExamined_fst (l : List Operand) : (someExamined l).1 = or l := by
  induction l with
  | nil => rfl
  | cons c cs ih => by_cases hc : c.eval = true <;> simp [someExamined, or, hc, ih]

/-- The instrumented `every` computes `and`. -/
theorem everyExamined_fst (l : List Operand) : (everyExamined l).1 = and l := by
  induction l with
  | nil => rfl
  | cons c cs ih => by_cases hc : c.eval = true <;> simp [everyExamined, and, hc, ih]

/-- Short-circuit of `or`: operands after the first one evaluating true are
never examined (so their functions are never invoked). -/
theorem someExamined_short_circuit :
    ∀ (pre : List Operand) (c : Operand) (post : List Operand),
      (∀ x ∈ pre, x.eval = false) → c.eval = true →
      someExamined (pre ++ c :: post) = (true, pre ++ [c]) := by
  intro pre
  induction pre with
  | nil =>
      intro c post _ hc
      simp [someExamined, hc]
  | cons x xs ih =>
      intro c post hpre hc
      have hx : x.eval = false := hpre x (by simp)
      have hxs := ih c post (fun y hy => hpre y (by simp [hy])) hc
      simp [someExamined, hx, hxs]

/-- Short-circuit of `and`: operands after the first one evaluating false
are never examined. -/
theorem everyExamined_short_circuit :
    ∀ (pre : List Operand) (c : Operand) (post : List Operand),
      (∀ x ∈ pre, x.eval = true) → c.eval = false →
      everyExamined (pre ++ c :: post) = (false, pre ++ [c]) := by
  intro pre
  induction pre with
  | nil =>
      intro c post _ hc
      simp [everyExamined, hc]
  | cons x xs ih =>
      intro c post hpre hc
      have hx : x.eval = true := hpre x (by simp)
      have hxs := ih c post (fun y hy => hpre y (by simp [hy])) hc
      simp [everyExamined, hx, hxs]

/-- Thunking preserves an operand's evaluation. -/
theorem eval_toThunk (c : Operand) : (Operand.toThunk c).eval = c.eval := by
  cases c <;> rfl

/-- Thunking preserves the aggregate result of `or`. -/
theorem or_map_toThunk (l : List Operand) : or (l.map Operand.toThunk) = or l := by
  induction l with
  | nil => rfl
  | cons c cs ih => simp [or, eval_toThunk, ih]

/-- Thunking preserves the aggregate result of `and`. -/
theorem and_map_toThunk (l : List Operand) : and (l.map Operand.toThunk) = and l := by
  induction l with
  | nil => rfl
  | cons c cs ih => simp [and, eval_toThunk, ih]

/-- C5: `or` is true exactly when some operand evaluates true and `and`
exactly when all do; both evaluate in sequence and stop at the first
deciding operand (no later operand is examined, so no later function is
invoked); the listed concrete cases hold; and literal operands and
equivalent thunks give identical aggregate results. -/
theorem or_and_combinators_spec :
    (∀ l : List Operand, or l = true ↔ ∃ c ∈ l, c.eval = true) ∧
    (∀ l : List Operand, and l = true ↔ ∀ c ∈ l, c.eval = true) ∧
    (∀ l : List Operand, (someExamined l).1 = or l) ∧
    (∀ l : List Operand, (everyExamined l).1 = and l) ∧
    (∀ (pre : List Operand) (c : Operand) (post : List Operand),
      (∀ x ∈ pre, x.eval = false) → c.eval = true →
      someExamined (pre ++ c :: post) = (true, pre ++ [c])) ∧
    (∀ (pre : List Operand) (c : Operand) (post : List Operand),
      (∀ x ∈ pre, x.eval = true) → c.eval = false →
      everyExamined (pre ++ c :: post) = (false, pre ++ [c])) ∧
    (or [.lit false, .lit true] = true ∧ or [.lit false, .lit false] = false ∧
      and [.lit true, .lit true] = true ∧ and [.lit true, .lit false] = false) ∧
    (∀ l : List Operand,
      or (l.map Operand.toThunk) = or l ∧ and (l.map Operand.toThunk) = and l) :=
  ⟨or_true_iff, and_true_iff, someExamined_fst, everyExamined_fst,
   someExamined_short_circuit, everyExamined_short_circuit,
   ⟨rfl, rfl, rfl, rfl⟩,
   fun l => ⟨or_map_toThunk l, and_map_toThunk l⟩⟩

/-- Witness for C5: short-circuit behaviour at concrete operand lists — the
function operand placed after the deciding operand is not examined. -/
theorem or_and_combinators_spec_witness :
    someExamined [Operand.lit false, Operand.lit true, Operand.fn (fun _ => false)] =
      (true, [Operand.lit false, Operand.lit true]) ∧
    everyExamined [Operand.lit true, Operand.lit false, Operand.fn (fun _ => true)] =
      (false, [Operand.lit true, Operand.lit false]) :=
  ⟨or_and_combinators_spec.2.2.2.2.1 [.lit false] (.lit true) [.fn (fun _ => false)]
      (by
        intro x hx
        rw [List.mem_singleton] at hx
        subst hx
        rfl)
      rfl,
   or_and_combinators_spec.2.2.2.2.2.1 [.lit true] (.lit false) [.fn (fun _ => true)]
      (by
        intro x hx
        rw [List.mem_singleton] at hx
        subst hx
        rfl)
      rfl⟩

/-- The snapshot lookup, characterized: the evaluation of the last tuple of
the list carrying the name, if any. -/
theorem checkAllSettle_lookup (tuples : List PolicyTuple) (n : String) :
    recordGet (checkAllSettle tuples) n =
      (tuples.reverse.find? (fun t => t.policyName = n)).map PolicyTuple.eval := by
  have h := recordGet_foldl (fun t : PolicyTuple => t.policyName) PolicyTuple.eval
    tuples [] n
  simp only [checkAllSettle, recordGet] at h ⊢
  rw [h]
  cases tuples.reverse.find? (fun t => t.policyName = n) <;> rfl

/-- C8: `checkAllSettle` evaluates every tuple (none is skipped, whatever
the other tuples settle to) and returns the name-indexed snapshot of the
boolean each tuple's condition evaluates to on its argument: lookup of any
name yields the evaluation of the last tuple carrying it, and under
pairwise-distinct names every tuple's name maps to exactly that tuple's
evaluation. -/
theorem checkAllSettle_spec :
    (∀ (tuples : List PolicyTuple) (n : String),
      recordGet (checkAllSettle tuples) n =
        (tuples.reverse.find? (fun t => t.policyName = n)).map PolicyTuple.eval) ∧
    (∀ tuples : List PolicyTuple,
      (tuples.map PolicyTuple.policyName).Nodup →
      ∀ t ∈ tuples,
        recordGet (checkAllSettle tuples) t.policyName = some t.eval) := by
  refine ⟨checkAllSettle_lookup, fun tuples hnd t ht => ?_⟩
  rw [checkAllSettle_lookup]
  have hmem : t ∈ tuples.reverse := List.mem_reverse.mpr ht
  have hsome : (tuples.reverse.find? (fun u => u.policyName = t.policyName)).isSome :=
    List.find?_isSome.mpr ⟨t, hmem, by simp⟩
  obtain ⟨u, hu⟩ := Option.isSome_iff_exists.mp hsome
  have humem : u ∈ tuples := List.mem_reverse.mp (List.mem_of_find?_eq_some hu)
  have hpred : u.policyName = t.policyName := by simpa using List.find?_some hu
  have hut : u = t := List.inj_on_of_nodup_map hnd humem ht hpred
  rw [hu, hut]
  rfl

/-- Witness for C8 at a concrete tuple list with distinct names: every
tuple settles and is reported. -/
theorem checkAllSettle_spec_witness :
    recordGet
        (checkAllSettle
          [PolicyTuple.nameCondition "post has comments" (.lit false),
           PolicyTuple.policyArg (definePolicy "my post" (.lit true) none)
             Value.vNull])
        "post has comments" =
      some false :=
  checkAllSettle_spec.2
    [PolicyTuple.nameCondition "post has comments" (.lit false),
     PolicyTuple.policyArg (definePolicy "my post" (.lit true) none) Value.vNull]
    (by decide)
    (PolicyTuple.nameCondition "post has comments" (.lit false))
    (by simp)

/-- C6: applying the curried result of `definePolicies` (a `define`
function whose result is itself a factory) to a context yields a function
that, on each invocation with the extra argument, constructs a fresh policy
set from a fresh policy list: invoking it twice with the same key produces
two sets with distinct object identities, both built from the factory's
list, whose name lookups behave identically. -/
theorem definePolicies_curried_fresh_sets (Ctx Key : Type)
    (f : Ctx → PoliciesOrFactory Key) (context : Ctx) (g : Key → List Policy)
    (hf : f context = .factory g) (k : Key) (nextId : Nat) :
    ∃ h : Key → Nat → AllocPolicySet × Nat,
      definePoliciesFromContextA f context nextId = (.keyed h, nextId) ∧
      (h k nextId).1.objectId ≠ (h k (h k nextId).2).1.objectId ∧
      (h k nextId).1.set = (PolicySet.ofList (g k)).set ∧
      (h k (h k nextId).2).1.set = (PolicySet.ofList (g k)).set ∧
      (∀ n : String,
        (h k nextId).1.policy n = (h k (h k nextId).2).1.policy n) := by
  refine ⟨fun k2 nid => newPolicySet (g k2) nid, ?_, ?_, rfl, rfl, fun n => rfl⟩
  · unfold definePoliciesFromContextA
    rw [hf]
  · simp only [newPolicySet]
    omega

/-- Witness for C6 at a concrete context function, context and key. -/
theorem definePolicies_curried_fresh_sets_witness :
    ∃ h : Unit → Nat → AllocPolicySet × Nat,
      definePoliciesFromContextA
          (fun _ : Unit => PoliciesOrFactory.factory
            (fun _ : Unit => [definePolicy "can administrate org" (.lit true) none]))
          () 0 = (.keyed h, 0) ∧
      (h () 0).1.objectId ≠ (h () (h () 0).2).1.objectId ∧
      (h () 0).1.set =
        (PolicySet.ofList [definePolicy "can administrate org" (.lit true) none]).set ∧
      (h () (h () 0).2).1.set =
        (PolicySet.ofList [definePolicy "can administrate org" (.lit true) none]).set ∧
      (∀ n : String,
        (h () 0).1.policy n = (h () (h () 0).2).1.policy n) :=
  definePolicies_curried_fresh_sets Unit Unit
    (fun _ => PoliciesOrFactory.factory
      (fun _ => [definePolicy "can administrate org" (.lit true) none]))
    ()
    (fun _ => [definePolicy "can administrate org" (.lit true) none])
    rfl () 0

end Comply
